import Mathlib

/-!
Verification of the diagnostic-engine core of the diy-home-repair backend.

The embedding below models, from the source:
  * the response normalization performed by `analyzeRepair`
    (src/unnamed/part_001, lines 336-409): JSON extraction from the raw
    model text, parsing, and the construction of the `AnalysisResult`
    record with clamped confidence, derived confidence level, the
    `needsMoreInfo` reconciliation, and per-field fallbacks;
  * `buildUserPrompt` (lines 416-487): the prompt composer with its
    home-profile section, Q&A history section and round-dependent
    instruction;
  * `getConfidenceLevel` (lines 489-493).

JavaScript numbers are modelled as exact rationals represented by an
integer numerator and a natural denominator (`JNum`), with comparisons by
cross-multiplication; `Option JNum` carries NaN as `none`.  All decimal
literals appearing in the source and the claims are short enough that the
double-rounding of the real runtime never reorders any comparison made by
the code, so the exact-rational model is faithful on every comparison the
program performs.
-/

/-- Exact rational standing for a JavaScript number: value `n / d`.
Denominators produced by the embedding are always positive powers of ten,
so cross-multiplied comparisons agree with the numeric order. -/
structure JNum where
  n : Int
  d : Nat
deriving DecidableEq, Repr

/-- Compare `a < b` by cross-multiplication. -/
def JNum.ltb (a b : JNum) : Bool := a.n * (b.d : Int) < b.n * (a.d : Int)

/-- Compare `a <= b` by cross-multiplication. -/
def JNum.leb (a b : JNum) : Bool := a.n * (b.d : Int) ≤ b.n * (a.d : Int)

def jnZero : JNum := ⟨0, 1⟩
def jnOne : JNum := ⟨1, 1⟩
def jnHalf : JNum := ⟨1, 2⟩

/-- JSON value as produced by `JSON.parse`.  Object fields keep their
textual order; lookup takes the last occurrence of a repeated key, as the
runtime does. -/
inductive JSValue where
  | null
  | bool (b : Bool)
  | num (q : JNum)
  | str (s : String)
  | arr (xs : List JSValue)
  | obj (fields : List (String × JSValue))

/-- JavaScript truthiness of a present value (`undefined` is handled by
`Option` at the use sites).  A number is falsy exactly when it is zero. -/
def jsTruthy : JSValue → Bool
  | .null => false
  | .bool b => b
  | .num q => !(q.n = 0 : Bool)
  | .str s => !(s = "" : Bool)
  | .arr _ => true
  | .obj _ => true

/-- Fallback `v || d` on a possibly-absent value: the JavaScript logical-or used for
all the fallbacks in the normalizer. -/
def jsOr (v : Option JSValue) (d : JSValue) : JSValue :=
  match v with
  | some x => if jsTruthy x then x else d
  | none => d

/-- Member access `parsed.key`.  On an object it returns the last binding
of the key; on any non-object it returns `undefined` (`none`).  (`null`
member access would throw at runtime; no value reaching the field reads of the normalizer is `null` in any execution the claims quantify over, and the
model keeps the access total.) -/
def getField : JSValue → String → Option JSValue
  | .obj fs, k => fs.foldl (fun acc p => if p.1 = k then some p.2 else acc) none
  | _, _ => none

/-- Test `parsed.needsMoreInfo === true`: strict equality with `true`. -/
def isStrictTrue : Option JSValue → Bool
  | some (.bool true) => true
  | _ => false

/-- JavaScript `ToNumber` coercion on the values that can reach
`Math.max` in the normalizer (only truthy values do).  `none` is NaN.
Non-empty arrays coerce through their string form at runtime; the model
returns NaN for them, which is exact for every array whose string form is
not numeric and is never exercised by the comparisons the program makes on
the claim inputs.  String coercion is modelled by `strToNumber` below. -/
def jsToNumber (strConv : String → Option JNum) : JSValue → Option JNum
  | .null => some jnZero
  | .bool b => some (if b then jnOne else jnZero)
  | .num q => some q
  | .str s => strConv s
  | .arr [] => some jnZero
  | .arr (_ :: _) => none
  | .obj _ => none

def isWsChar (c : Char) : Bool :=
  c = ' ' || c = '\t' || c = '\n' || c = '\r'

def skipWs : List Char → List Char
  | [] => []
  | c :: cs => if isWsChar c then skipWs cs else c :: cs

def digitVal (c : Char) : Option Nat :=
  if c.isDigit then some (c.toNat - 48) else none

/-- Collect a maximal run of leading decimal digits. -/
def takeDigits : List Char → (List Nat × List Char)
  | [] => ([], [])
  | c :: cs =>
    match digitVal c with
    | some d =>
      let r := takeDigits cs
      (d :: r.1, r.2)
    | none => ([], c :: cs)

def digitsToNat (ds : List Nat) : Nat :=
  ds.foldl (fun a d => a * 10 + d) 0

/-- Build the rational `mantissa * 10^(e)` where `e` may be negative. -/
def scaleByTen (m : Int) (e : Int) : JNum :=
  if 0 ≤ e then ⟨m * ((10 : Int) ^ e.toNat), 1⟩ else ⟨m, (10 : Nat) ^ (-e).toNat⟩

/-- Parse a JSON number literal at the head of the input, returning the
value and the remaining input. -/
def parseNumLit (cs : List Char) : Option (JNum × List Char) :=
  let signed : Bool × List Char :=
    match cs with
    | c :: r => if c = '-' then (true, r) else (false, cs)
    | [] => (false, cs)
  let neg := signed.1
  match takeDigits signed.2 with
  | ([], _) => none
  | (d0 :: ds, r1) =>
    if d0 = 0 ∧ ds ≠ [] then none
    else
      let ip : Nat := digitsToNat (d0 :: ds)
      let fracStep : Option (Nat × Nat × List Char) :=
        match r1 with
        | '.' :: r2 =>
          match takeDigits r2 with
          | ([], _) => none
          | (fds, r3) => some (digitsToNat fds, fds.length, r3)
        | _ => some (0, 0, r1)
      match fracStep with
      | none => none
      | some (fv, flen, r3) =>
        let mant : Int := (ip * 10 ^ flen + fv : Nat)
        let mant := if neg then -mant else mant
        match r3 with
        | c :: r4 =>
          if c = 'e' ∨ c = 'E' then
            let esigned : Bool × List Char :=
              match r4 with
              | c2 :: rr =>
                if c2 = '-' then (true, rr)
                else if c2 = '+' then (false, rr)
                else (false, r4)
              | [] => (false, r4)
            match takeDigits esigned.2 with
            | ([], _) => none
            | (eds, r5) =>
              let e : Int := (digitsToNat eds : Nat)
              let e := if esigned.1 then -e else e
              some (scaleByTen mant (e - flen), r5)
          else some (scaleByTen mant (-(flen : Int)), r3)
        | [] => some (scaleByTen mant (-(flen : Int)), [])

def hexVal (c : Char) : Option Nat :=
  if c.isDigit then some (c.toNat - 48)
  else if 'a' ≤ c ∧ c ≤ 'f' then some (c.toNat - 87)
  else if 'A' ≤ c ∧ c ≤ 'F' then some (c.toNat - 55)
  else none

/-- Parse the body of a JSON string after the opening quote, handling the
escape sequences `JSON.parse` accepts. -/
def parseStrBody (fuel : Nat) (acc : List Char) (cs : List Char) :
    Option (String × List Char) :=
  match fuel with
  | 0 => none
  | fuel + 1 =>
    match cs with
    | [] => none
    | c :: rest =>
      if c = '"' then some (String.mk acc.reverse, rest)
      else if c = '\\' then
        match rest with
        | [] => none
        | e :: rest2 =>
          if e = '"' then parseStrBody fuel ('"' :: acc) rest2
          else if e = '\\' then parseStrBody fuel ('\\' :: acc) rest2
          else if e = '/' then parseStrBody fuel ('/' :: acc) rest2
          else if e = 'n' then parseStrBody fuel ('\n' :: acc) rest2
          else if e = 't' then parseStrBody fuel ('\t' :: acc) rest2
          else if e = 'r' then parseStrBody fuel ('\r' :: acc) rest2
          else if e = 'b' then parseStrBody fuel (Char.ofNat 8 :: acc) rest2
          else if e = 'f' then parseStrBody fuel (Char.ofNat 12 :: acc) rest2
          else if e = 'u' then
            match rest2 with
            | h1 :: h2 :: h3 :: h4 :: rest3 =>
              match hexVal h1, hexVal h2, hexVal h3, hexVal h4 with
              | some a, some b, some c2, some d =>
                parseStrBody fuel (Char.ofNat (((a * 16 + b) * 16 + c2) * 16 + d) :: acc) rest3
              | _, _, _, _ => none
            | _ => none
          else none
      else if c.toNat < 32 then none
      else parseStrBody fuel (c :: acc) rest

mutual

/-- Recursive-descent model of `JSON.parse`, fuelled; the top-level entry
supplies more fuel than the recursion can consume, so exhaustion never
occurs on inputs the program sees. -/
def parseVal (fuel : Nat) (cs : List Char) : Option (JSValue × List Char) :=
  match fuel with
  | 0 => none
  | fuel + 1 =>
    match skipWs cs with
    | [] => none
    | c :: rest =>
      if c = '"' then
        match parseStrBody fuel [] rest with
        | some (s, r) => some (.str s, r)
        | none => none
      else if c = '{' then parseObjBody fuel rest
      else if c = '[' then parseArrBody fuel rest
      else if c = 't' then
        match rest with
        | 'r' :: 'u' :: 'e' :: r => some (.bool true, r)
        | _ => none
      else if c = 'f' then
        match rest with
        | 'a' :: 'l' :: 's' :: 'e' :: r => some (.bool false, r)
        | _ => none
      else if c = 'n' then
        match rest with
        | 'u' :: 'l' :: 'l' :: r => some (.null, r)
        | _ => none
      else
        match parseNumLit (c :: rest) with
        | some (q, r) => some (.num q, r)
        | none => none

/-- Parse the members of an object, starting right after `{`. -/
def parseObjBody (fuel : Nat) (cs : List Char) : Option (JSValue × List Char) :=
  match fuel with
  | 0 => none
  | fuel + 1 =>
    match skipWs cs with
    | [] => none
    | c :: rest =>
      if c = '}' then some (.obj [], rest)
      else parseMembers fuel (c :: rest) []

/-- Parse `"key" : value (, "key" : value)* }`. -/
def parseMembers (fuel : Nat) (cs : List Char) (acc : List (String × JSValue)) :
    Option (JSValue × List Char) :=
  match fuel with
  | 0 => none
  | fuel + 1 =>
    match skipWs cs with
    | '"' :: rest =>
      match parseStrBody fuel [] rest with
      | none => none
      | some (k, r1) =>
        match skipWs r1 with
        | ':' :: r2 =>
          match parseVal fuel r2 with
          | none => none
          | some (v, r3) =>
            match skipWs r3 with
            | ',' :: r4 => parseMembers fuel r4 (acc ++ [(k, v)])
            | '}' :: r4 => some (.obj (acc ++ [(k, v)]), r4)
            | _ => none
        | _ => none
    | _ => none

/-- Parse the elements of an array, starting right after `[`. -/
def parseArrBody (fuel : Nat) (cs : List Char) : Option (JSValue × List Char) :=
  match fuel with
  | 0 => none
  | fuel + 1 =>
    match skipWs cs with
    | ']' :: rest => some (.arr [], rest)
    | cs2 => parseElems fuel cs2 []

/-- Parse `value (, value)* ]`. -/
def parseElems (fuel : Nat) (cs : List Char) (acc : List JSValue) :
    Option (JSValue × List Char) :=
  match fuel with
  | 0 => none
  | fuel + 1 =>
    match parseVal fuel cs with
    | none => none
    | some (v, r1) =>
      match skipWs r1 with
      | ',' :: r2 => parseElems fuel r2 (acc ++ [v])
      | ']' :: r2 => some (.arr (acc ++ [v]), r2)
      | _ => none

end

/-- Model of `JSON.parse` on a character list: one value, then only trailing
whitespace. -/
def parseJsonChars (cs : List Char) : Option JSValue :=
  match parseVal (cs.length + 8) cs with
  | some (v, rest) => if skipWs rest = [] then some v else none
  | none => none

/-- Strip the modelled whitespace characters from both ends. -/
def trimWs (cs : List Char) : List Char :=
  (skipWs ((skipWs cs).reverse)).reverse

/-- JavaScript `ToNumber` on a string (used when a truthy string reaches
`Math.max`): surrounding whitespace ignored, empty means `0`, otherwise a
signed decimal literal that must span the whole string; anything else is
NaN (`none`).  Hexadecimal and `Infinity` spellings are out of scope
for the model and answer NaN. -/
def strToNum (s : String) : Option JNum :=
  match trimWs s.data with
  | [] => some jnZero
  | cs =>
    let signed : Bool × List Char :=
      match cs with
      | c :: r =>
        if c = '-' then (true, r) else if c = '+' then (false, r) else (false, cs)
      | [] => (false, cs)
    let ipart := takeDigits signed.2
    let fpart : Option (Nat × Nat × List Char) :=
      match ipart.2 with
      | '.' :: r2 =>
        let fd := takeDigits r2
        some (digitsToNat fd.1, fd.1.length, fd.2)
      | _ => some (0, 0, ipart.2)
    match fpart with
    | none => none
    | some (fv, flen, r3) =>
      if ipart.1 = [] ∧ flen = 0 then none
      else
        let mant : Int := (digitsToNat ipart.1 * 10 ^ flen + fv : Nat)
        let mant := if signed.1 then -mant else mant
        match r3 with
        | [] => some (scaleByTen mant (-(flen : Int)))
        | c :: r4 =>
          if c = 'e' ∨ c = 'E' then
            let esigned : Bool × List Char :=
              match r4 with
              | c2 :: rr =>
                if c2 = '-' then (true, rr)
                else if c2 = '+' then (false, rr)
                else (false, r4)
              | [] => (false, r4)
            match takeDigits esigned.2 with
            | ([], _) => none
            | (eds, r5) =>
              if r5 = [] then
                let e : Int := (digitsToNat eds : Nat)
                some (scaleByTen mant ((if esigned.1 then -e else e) - flen))
              else none
          else none

/-- Split a list around the first occurrence of `pat`, returning the part
before and the part after. -/
def splitFirst (pat : List Char) : List Char → Option (List Char × List Char)
  | [] => if pat.isPrefixOf ([] : List Char) then some ([], []) else none
  | c :: rest =>
    if pat.isPrefixOf (c :: rest) then some ([], (c :: rest).drop pat.length)
    else
      match splitFirst pat rest with
      | some p => some (c :: p.1, p.2)
      | none => none

def firstIdx (c : Char) : List Char → Option Nat
  | [] => none
  | x :: xs => if x = c then some 0 else (firstIdx c xs).map (· + 1)

def lastIdx (c : Char) : List Char → Option Nat
  | [] => none
  | x :: xs =>
    match lastIdx c xs with
    | some k => some (k + 1)
    | none => if x = c then some 0 else none

/-- The fallback regex `\x7b[\s\S]*\x7d` (greedy): it matches exactly when
some `{` is followed by a later `}`, and the match runs from the first `{`
to the last `}` of the whole text. -/
def braceMatch (s : List Char) : Option (List Char) :=
  match firstIdx '{' s, lastIdx '}' s with
  | some i, some j => if i < j then some ((s.drop i).take (j - i + 1)) else none
  | _, _ => none

def fenceOpen : List Char := ("```json").data

def fenceClose : List Char := ("```").data

/-- The preferred regex ```` ```json\s*([\s\S]*?)\s*``` ````: the lazy
group makes it take the first ` ```json ` fence and the earliest closing
fence after it; the surrounding `\s*` strip whitespace from both ends of
the capture.  Returns `(whole match, capture)`. -/
def fencedMatch (s : List Char) : Option (List Char × List Char) :=
  match splitFirst fenceOpen s with
  | none => none
  | some (_, rest) =>
    match splitFirst fenceClose rest with
    | none => none
    | some (inner, _) => some (fenceOpen ++ inner ++ fenceClose, trimWs inner)

/-- Lines 337-342: `text.match(fenced) || text.match(braces)` followed by
`jsonMatch[1] || jsonMatch[0]` (the brace regex has no capture group, and
an empty capture is falsy, falling back to the whole match). -/
def jsonStrOf (s : List Char) : Option (List Char) :=
  match fencedMatch s with
  | some (full, cap) => some (if cap = [] then full else cap)
  | none => braceMatch s

/-- Compare `confidence >= t` on a possibly-NaN number: false for NaN. -/
def jnGeb (c : Option JNum) (t : JNum) : Bool :=
  match c with
  | some x => JNum.leb t x
  | none => false

/-- Compare `confidence < t` on a possibly-NaN number: false for NaN. -/
def jnLtb (c : Option JNum) (t : JNum) : Bool :=
  match c with
  | some x => JNum.ltb x t
  | none => false

/-- Lines 489-493 (`getConfidenceLevel`). -/
def getConfidenceLevel (confidence : Option JNum) : String :=
  if jnGeb confidence ⟨8, 10⟩ then ("high")
  else if jnGeb confidence ⟨6, 10⟩ then ("medium")
  else ("low")

/-- Model of `Math.max(0, x)`: NaN propagates. -/
def mathMax0 (x : Option JNum) : Option JNum :=
  match x with
  | none => none
  | some q => some (if JNum.ltb q jnZero then jnZero else q)

/-- Model of `Math.min(1, x)`: NaN propagates. -/
def mathMin1 (x : Option JNum) : Option JNum :=
  match x with
  | none => none
  | some q => some (if JNum.ltb jnOne q then jnOne else q)

/-- Line 346: `Math.min(1, Math.max(0, parsed.confidence || 0.5))`. -/
def computeConfidence (parsed : JSValue) : Option JNum :=
  mathMin1 (mathMax0 (jsToNumber strToNum (jsOr (getField parsed ("confidence")) (.num jnHalf))))

/-- The shapes of `src/types/index.ts`, with the fields the normalizer
merely passes through kept as dynamic `JSValue`s (the TypeScript types
are not enforced at runtime). -/
structure ClarifyingQuestion where
  question : JSValue
  suggestions : List JSValue

structure MaterialItem where
  item : JSValue
  spec : JSValue
  qty : JSValue
  description : JSValue
  howToUse : JSValue
  estimatedCost : JSValue

structure ToolItem where
  name : JSValue
  description : JSValue
  howToUse : JSValue

structure AnalysisResult where
  needsMoreInfo : Bool
  questions : List ClarifyingQuestion
  summary : JSValue
  confidence : Option JNum
  confidenceLevel : String
  problemShort : JSValue
  diyFriendly : JSValue
  difficulty : JSValue
  estimatedTime : JSValue
  estimatedCost : JSValue
  proEstimate : JSValue
  immediateActions : JSValue
  damage : JSValue
  materials : List MaterialItem
  tools : List ToolItem
  steps : JSValue
  cureTimeNotes : JSValue
  warnings : JSValue
  callAProIf : JSValue
  youtubeSearchQuery : JSValue
  proType : JSValue
  suggestedQuestions : List JSValue
  followups : List JSValue
  additionalPhotosNeeded : Bool

/-- Lines 351-354: one entry of `(parsed.questions || []).map(...)`; a
`null` entry would throw (`q.question` on `null`). -/
def normQuestion : JSValue → Except Unit ClarifyingQuestion
  | .null => .error ()
  | q =>
    .ok
      { question := jsOr (getField q ("question")) (.str (""))
        suggestions :=
          match getField q ("suggestions") with
          | some (.arr xs) => xs
          | _ => [] }

/-- Lines 377-384: one entry of `(parsed.materials || []).map(...)`. -/
def normMaterial : JSValue → Except Unit MaterialItem
  | .null => .error ()
  | m =>
    .ok
      { item := jsOr (getField m ("item")) (.str (""))
        spec := jsOr (getField m ("spec")) (.str (""))
        qty := jsOr (getField m ("qty")) (.str (""))
        description := jsOr (getField m ("description")) (.str (""))
        howToUse := jsOr (getField m ("howToUse")) (.str (""))
        estimatedCost := jsOr (getField m ("estimatedCost")) (.str ("")) }

/-- Lines 385-389: one entry of `(parsed.tools || []).map(...)`; a plain
string becomes a `name`-only record with empty description and usage. -/
def normTool : JSValue → Except Unit ToolItem
  | .str s => .ok { name := .str s, description := .str (""), howToUse := .str ("") }
  | .null => .error ()
  | t =>
    .ok
      { name := jsOr (getField t ("name")) (.str (""))
        description := jsOr (getField t ("description")) (.str (""))
        howToUse := jsOr (getField t ("howToUse")) (.str ("")) }

/-- Model of `(v || []).map(f)`: a falsy field maps over the empty array; a truthy
non-array has no `.map` and throws `TypeError`. -/
def mapJsArray (v : Option JSValue) (f : JSValue → Except Unit α) : Except Unit (List α) :=
  match jsOr v (.arr []) with
  | .arr xs => xs.mapM f
  | _ => .error ()

/-- Test `q.length > 0` for a truthy `q`: only strings and arrays have a
numeric `length`. -/
def jsLenPos : JSValue → Bool
  | .str s => decide (0 < s.length)
  | .arr xs => decide (0 < xs.length)
  | _ => false

/-- Lines 402-404: `Array.isArray(parsed.suggestedQuestions) ?
parsed.suggestedQuestions.filter(q => q && q.length > 0) : []`. -/
def suggestedOf (parsed : JSValue) : List JSValue :=
  match getField parsed ("suggestedQuestions") with
  | some (.arr xs) => xs.filter (fun q => jsTruthy q && jsLenPos q)
  | _ => []

/-- Lines 345-409: the construction of the returned `AnalysisResult` from
the parsed JSON value, in the evaluation order of the source (the three
`.map` calls are the only operations that can throw). -/
def normalizeParsed (parsed : JSValue) : Except Unit AnalysisResult :=
  match mapJsArray (getField parsed ("questions")) normQuestion with
  | .error e => .error e
  | .ok questions =>
    match mapJsArray (getField parsed ("materials")) normMaterial with
    | .error e => .error e
    | .ok materials =>
      match mapJsArray (getField parsed ("tools")) normTool with
      | .error e => .error e
      | .ok tools =>
        let confidence := computeConfidence parsed
        let confidenceLevel := getConfidenceLevel confidence
        let needsMoreInfo :=
          isStrictTrue (getField parsed ("needsMoreInfo")) || jnLtb confidence ⟨7, 10⟩
        .ok
          { needsMoreInfo
            questions
            summary := jsOr (getField parsed ("summary")) (.str ("Unable to determine issue"))
            confidence
            confidenceLevel
            problemShort := jsOr (getField parsed ("problemShort")) (.str (""))
            diyFriendly := jsOr (getField parsed ("diyFriendly")) (.str ("maybe"))
            difficulty := jsOr (getField parsed ("difficulty")) (.str ("medium"))
            estimatedTime := jsOr (getField parsed ("estimatedTime")) (.str (""))
            estimatedCost := jsOr (getField parsed ("estimatedCost")) (.str (""))
            proEstimate := jsOr (getField parsed ("proEstimate")) (.str (""))
            immediateActions := jsOr (getField parsed ("immediateActions")) (.arr [])
            damage :=
              jsOr (getField parsed ("damage"))
                (.obj
                  [(("type"), .str ("Unknown")), (("severity"), .str ("moderate")),
                    (("affectedArea"), .str ("Unknown"))])
            materials
            tools
            steps := jsOr (getField parsed ("steps")) (.arr [])
            cureTimeNotes := jsOr (getField parsed ("cureTimeNotes")) (.str (""))
            warnings := jsOr (getField parsed ("warnings")) (.arr [])
            callAProIf := jsOr (getField parsed ("callAProIf")) (.arr [])
            youtubeSearchQuery := jsOr (getField parsed ("youtubeSearchQuery")) (.str (""))
            proType := jsOr (getField parsed ("proType")) (.str (""))
            suggestedQuestions := suggestedOf parsed
            followups := []
            additionalPhotosNeeded := needsMoreInfo }

/-- The distinguishable failure points inside the `try` block of
`analyzeRepair`: the explicit throw when no JSON is located (line 339,
called `MalformedModelOutput` by the spec), a `JSON.parse` syntax error, and a
`TypeError` from calling `.map` on a non-array. -/
inductive NormFailure where
  | noJsonFound
  | jsonParseError
  | typeError
deriving DecidableEq, Repr

/-- Lines 336-409: the whole response-processing path of `analyzeRepair`
on the raw model text (the surrounding network call is I/O and out of
scope). -/
def analyzeTryBody (text : String) : Except NormFailure AnalysisResult :=
  match jsonStrOf text.data with
  | none => .error .noJsonFound
  | some cs =>
    match parseJsonChars cs with
    | none => .error .jsonParseError
    | some parsed =>
      match normalizeParsed parsed with
      | .error _ => .error .typeError
      | .ok r => .ok r

/-- Lines 410-413: the `catch` collapses every failure of the try block
into the single rethrown error. -/
def analyzeRepairModel (text : String) : Except String AnalysisResult :=
  match analyzeTryBody text with
  | .ok r => .ok r
  | .error _ => .error ("Failed to analyze images with AI")

/-- Shape `QuestionAnswer` from `src/types/index.ts`. -/
structure QuestionAnswer where
  question : String
  answer : String
deriving DecidableEq, Repr

/-- Shape `HomeProfile` from `src/types/index.ts`: every attribute optional;
`none` is an absent key. -/
structure HomeProfile where
  email : Option String
  nickname : Option String
  homeType : Option String
  yearBuilt : Option String
  pipeType : Option String
  waterHeaterType : Option String
  hvacType : Option String
  hvacAge : Option String
  roofType : Option String
  roofAge : Option String
  mainFlooring : Option String
deriving DecidableEq, Repr

/-- Shape `RepairMetadata` from `src/types/index.ts` (the enum-valued fields are
carried as optional strings; `buildUserPrompt` never reads them). -/
structure RepairMetadata where
  description : String
  location : Option String
  waterExposure : Option String
  gettingWorse : Option String
  surfaceCondition : Option String
  repairGoal : Option String
  conversationHistory : Option (List QuestionAnswer)
  homeProfile : Option HomeProfile
  previousAnswers : Option (List QuestionAnswer)
deriving DecidableEq, Repr

/-- Count `Object.keys(metadata.homeProfile).length`: the number of keys present
on the object, regardless of the truthiness of their values. -/
def profileKeyCount (p : HomeProfile) : Nat :=
  (([p.email, p.nickname, p.homeType, p.yearBuilt, p.pipeType, p.waterHeaterType,
      p.hvacType, p.hvacAge, p.roofType, p.roofAge,
      p.mainFlooring] : List (Option String)).filter Option.isSome).length

/-- Model of `if (field) lines.push(pre + field)`: one line when the attribute is
present and truthy (a present empty string is falsy). -/
def optLine (pre : String) (o : Option String) : List String :=
  match o with
  | some s => if s = "" then [] else [pre ++ s]
  | none => []

/-- Model of ``if (profile.hvacAge) line += ` (${age} old)` `` and the analogous
roof-age suffix. -/
def ageSuffix (o : Option String) : String :=
  match o with
  | some s => if s = "" then "" else (" (") ++ s ++ (" old)")
  | none => ""

def hvacLines (p : HomeProfile) : List String :=
  match p.hvacType with
  | some s => if s = "" then [] else [("- HVAC: ") ++ s ++ ageSuffix p.hvacAge]
  | none => []

def roofLines (p : HomeProfile) : List String :=
  match p.roofType with
  | some s => if s = "" then [] else [("- Roof: ") ++ s ++ ageSuffix p.roofAge]
  | none => []

/-- Lines 426-440: the `profileLines` array, in source order. -/
def profileLines (p : HomeProfile) : List String :=
  optLine ("- Home Type: ") p.homeType ++ optLine ("- Year Built: ") p.yearBuilt ++
    optLine ("- Pipe Type: ") p.pipeType ++ optLine ("- Water Heater: ") p.waterHeaterType ++
    hvacLines p ++ roofLines p ++ optLine ("- Main Flooring: ") p.mainFlooring

/-- Lines 422-449: the home-profile block of the prompt. -/
def profileSectionOf (m : RepairMetadata) : String :=
  match m.homeProfile with
  | none => ""
  | some profile =>
    if 0 < profileKeyCount profile then
      if profileLines profile = [] then ""
      else
        ("\nHOME PROFILE:\n") ++ String.intercalate ("\n") (profileLines profile) ++
          ("\n(Use this info to personalize advice - e.g., old galvanized pipes need different approach than PEX, older homes may have lead paint, etc.)\n")
    else ""

/-- Line 455: ``Q: ${qa.question}\nA: ${qa.answer || "(skipped)"}``. -/
def renderQA (qa : QuestionAnswer) : String :=
  ("Q: ") ++ qa.question ++ ("\nA: ") ++ (if qa.answer = "" then ("(skipped)") else qa.answer)

def historyOf (m : RepairMetadata) : List QuestionAnswer :=
  m.conversationHistory.getD []

/-- Line 417: `metadata.conversationHistory && metadata.conversationHistory.length > 0`. -/
def hasConversationB (m : RepairMetadata) : Bool :=
  match m.conversationHistory with
  | some h => decide (0 < h.length)
  | none => false

/-- Lines 452-461: the prior-conversation block of the prompt. -/
def conversationSectionOf (m : RepairMetadata) : String :=
  if hasConversationB m then
    ("\nPREVIOUS CONVERSATION:\n") ++
      String.intercalate ("\n\n") ((historyOf m).map renderQA) ++ ("\n")
  else ""

def maxRounds : Nat := 3

/-- Line 418: `hasConversation ? Math.ceil(len / 3) + 1 : 1`
(`(len + 2) / 3` is `ceil(len / 3)` on naturals). -/
def roundNumberOf (m : RepairMetadata) : Nat :=
  if hasConversationB m then ((historyOf m).length + 2) / 3 + 1 else 1

/-- Line 470: the final-round instruction. -/
def finalInstructionFor (r : Nat) : String :=
  ("This is round ") ++ toString r ++ ("/") ++ toString maxRounds ++
    (" (final). Provide your best analysis now based on all available information. Do NOT ask more questions.")

/-- Line 472: the continuation instruction. -/
def contInstructionFor (r : Nat) : String :=
  ("Round ") ++ toString r ++ ("/") ++ toString maxRounds ++
    (". Review ALL information above (description + answers). Assess your DIAGNOSTIC CONFIDENCE based on how clearly you can identify the problem - not just because questions were answered. If the answers helped clarify the diagnosis, confidence should be higher. If answers were vague or unhelpful, confidence may still be low.")

/-- Line 474: the first-round instruction. -/
def round1Instruction : String :=
  ("Round 1/") ++ toString maxRounds ++
    (". Assess your diagnostic confidence. Can you identify the specific problem? If unclear, ask 2-3 questions to help diagnose.")

/-- Lines 468-475: instruction selection by round. -/
def instructionOf (m : RepairMetadata) : String :=
  if maxRounds ≤ roundNumberOf m then finalInstructionFor (roundNumberOf m)
  else if hasConversationB m then contInstructionFor (roundNumberOf m)
  else round1Instruction

def imageNoteOf (hasImages : Bool) : String :=
  if hasImages then ("(User provided photos)") else ("(No photos provided)")

/-- An apostrophe (the prompt heading contains one). -/
def apos : String := String.mk [Char.ofNat 39]

/-- Lines 416-487 (`buildUserPrompt`): the complete prompt template. -/
def buildUserPrompt (metadata : RepairMetadata) (hasImages : Bool) : String :=
  ("\nUSER") ++ apos ++ ("S PROBLEM:\n\"") ++ metadata.description ++ ("\"\n") ++
    imageNoteOf hasImages ++ ("\n") ++ profileSectionOf metadata ++
    conversationSectionOf metadata ++ ("\n---\n") ++ instructionOf metadata ++
    ("\n\nBase your confidence on DIAGNOSTIC CLARITY - how well you can identify and fix the problem.\n")

/-! Concrete inputs and expected outputs used by the claims below. -/

/-- Raw model text that is exactly the JSON object `{"confidence":0.9}`. -/
def minimalText : String := "\x7b\x22confidence\x22:0.9\x7d"

/-- The same object as a parsed value. -/
def minimalParsed : JSValue := .obj [(("confidence"), .num ⟨9, 10⟩)]

/-- The fully-defaulted result the normalizer produces for
`{"confidence":0.9}`. -/
def defaultResult09 : AnalysisResult :=
  { needsMoreInfo := false
    questions := []
    summary := .str ("Unable to determine issue")
    confidence := some ⟨9, 10⟩
    confidenceLevel := ("high")
    problemShort := .str ("")
    diyFriendly := .str ("maybe")
    difficulty := .str ("medium")
    estimatedTime := .str ("")
    estimatedCost := .str ("")
    proEstimate := .str ("")
    immediateActions := .arr []
    damage :=
      .obj
        [(("type"), .str ("Unknown")), (("severity"), .str ("moderate")),
          (("affectedArea"), .str ("Unknown"))]
    materials := []
    tools := []
    steps := .arr []
    cureTimeNotes := .str ("")
    warnings := .arr []
    callAProIf := .arr []
    youtubeSearchQuery := .str ("")
    proType := .str ("")
    suggestedQuestions := []
    followups := []
    additionalPhotosNeeded := false }

/-- A model output that reports `needsMoreInfo: true` together with a high
confidence and a question list. -/
def flagHighParsed : JSValue :=
  .obj
    [(("needsMoreInfo"), .bool true), (("confidence"), .num ⟨9, 10⟩),
      (("questions"),
        .arr
          [.obj
            [(("question"), .str ("Where is the leak?")),
              (("suggestions"), .arr [.str ("Sink"), .str ("Toilet")])]])]

/-- A model output with an explicit `confidence` of `0`. -/
def zeroConfParsed : JSValue := .obj [(("confidence"), .num ⟨0, 1⟩)]

/-- Raw text holding two separate JSON objects: the greedy brace regex
extracts from the first `{` to the last `}`, which is not valid JSON. -/
def twoObjectsText : String := "x \x7b\x22a\x22:1\x7d y \x7b\x22b\x22:2\x7d z"

def metaNoHistory : RepairMetadata :=
  { description := ("water leak under sink")
    location := none
    waterExposure := none
    gettingWorse := none
    surfaceCondition := none
    repairGoal := none
    conversationHistory := none
    homeProfile := none
    previousAnswers := none }

def metaRound2 : RepairMetadata :=
  { metaNoHistory with
    conversationHistory := some [{ question := ("Where is the leak?"), answer := ("") }] }

def metaRound3 : RepairMetadata :=
  { metaNoHistory with
    conversationHistory :=
      some (List.replicate 6 { question := ("Q"), answer := ("A") }) }

/-! Spec-side notions the claims are stated against. -/

/-- Predicate: `pat` occurs inside `big` as a contiguous substring. -/
def strContains (big pat : String) : Prop := ∃ x y, big = x ++ pat ++ y

/-- The round function the spec states, of the history length alone: round 1 for an
empty history, otherwise `ceil(length / 3) + 1` (`(n + 2) / 3` is the
ceiling of `n / 3` on naturals). -/
def roundFromLength (n : Nat) : Nat := if n = 0 then 1 else (n + 2) / 3 + 1

/-- The raw text contains a fenced block: some ` ```json ` later followed
by a closing ` ``` `. -/
def hasFencedBlock (s : List Char) : Prop :=
  ∃ x y z, s = x ++ fenceOpen ++ y ++ fenceClose ++ z

/-- The raw text contains a `{` followed by a later `}`. -/
def hasBracePair (s : List Char) : Prop :=
  ∃ i j : Nat, i < j ∧ s[i]? = some '{' ∧ s[j]? = some '}'

/-! Theorems.  Shared helper lemmas come first, then one theorem per
claim (with its witness or counterexample). -/

/-- Inversion of a successful normalization: the engine-computed fields
are exactly the line-346-348 constants of the source, and the legacy fields
are as on lines 407-408. -/
theorem normalizeParsed_fields (parsed : JSValue) (r : AnalysisResult)
    (h : normalizeParsed parsed = Except.ok r) :
    r.confidence = computeConfidence parsed ∧
      r.confidenceLevel = getConfidenceLevel (computeConfidence parsed) ∧
      r.needsMoreInfo =
        (isStrictTrue (getField parsed ("needsMoreInfo")) ||
          jnLtb (computeConfidence parsed) ⟨7, 10⟩) ∧
      r.followups = [] ∧
      r.additionalPhotosNeeded = r.needsMoreInfo := by
  unfold normalizeParsed at h
  split at h
  · simp at h
  · split at h
    · simp at h
    · split at h
      · simp at h
      · simp only [Except.ok.injEq] at h
        subst h
        exact ⟨rfl, rfl, rfl, rfl, rfl⟩

/-- C2: for every parsed model output, the normalized `needsMoreInfo`
flag equals the logical OR of the model-supplied flag being exactly
`true` and the clamped confidence being below 0.7 (line 348). -/
theorem c2_needsMoreInfo_or_rule (parsed : JSValue) (r : AnalysisResult)
    (h : normalizeParsed parsed = Except.ok r) :
    r.needsMoreInfo =
      (isStrictTrue (getField parsed ("needsMoreInfo")) || jnLtb r.confidence ⟨7, 10⟩) := by
  obtain ⟨hc, _, hn, _, _⟩ := normalizeParsed_fields parsed r h
  rw [hn, hc]

/-- Witness for C2 at the concrete output `{"confidence":0.9}`. -/
theorem c2_needsMoreInfo_or_rule_witness :
    defaultResult09.needsMoreInfo =
      (isStrictTrue (getField minimalParsed ("needsMoreInfo")) ||
        jnLtb defaultResult09.confidence ⟨7, 10⟩) :=
  c2_needsMoreInfo_or_rule minimalParsed defaultResult09 (by rfl)

/-- C1 counterexample: on `{"needsMoreInfo":true,"confidence":0.9,
"questions":[...]}` the normalizer keeps `needsMoreInfo = true` although
the clamped confidence is not below 0.7, and keeps the non-empty question
list — so `needsMoreInfo == (confidence < 0.7)` does not hold and
`questions` is not emptied when confidence is at least 0.7: the `true`
flag of the model is not overridden. -/
theorem c1_needsMoreInfo_iff_cex :
    (normalizeParsed flagHighParsed).map
        (fun r => (r.needsMoreInfo, jnLtb r.confidence ⟨7, 10⟩, r.questions.length)) =
      Except.ok (true, false, 1) := rfl

/-- C1 amended: `needsMoreInfo` is the OR of the exact `true` flag from
the model and `confidence < 0.7`; so the engine only overrides that
flag upward — when the model does not say `needsMoreInfo === true` the
invariant `needsMoreInfo == (confidence < 0.7)` holds, and when the
model says `true` the flag stays `true` regardless of confidence.  (The
full-analysis fields and `questions` are passed through with fallbacks
and are never cleared based on these values.) -/
theorem c1_needsMoreInfo_override_amended (parsed : JSValue) (r : AnalysisResult)
    (h : normalizeParsed parsed = Except.ok r) :
    (isStrictTrue (getField parsed ("needsMoreInfo")) = false →
        r.needsMoreInfo = jnLtb r.confidence ⟨7, 10⟩) ∧
      (isStrictTrue (getField parsed ("needsMoreInfo")) = true → r.needsMoreInfo = true) := by
  obtain ⟨hc, _, hn, _, _⟩ := normalizeParsed_fields parsed r h
  constructor
  · intro hf
    rw [hn, hf, hc]
    simp
  · intro ht
    rw [hn, ht]
    simp

/-- Witness for the amended C1 at `{"confidence":0.9}` (flag absent). -/
theorem c1_needsMoreInfo_override_amended_witness :
    defaultResult09.needsMoreInfo = jnLtb defaultResult09.confidence ⟨7, 10⟩ :=
  (c1_needsMoreInfo_override_amended minimalParsed defaultResult09 (by rfl)).1 (by rfl)

/-- C7 counterexample: a model-supplied `confidence` of `0` is falsy for
the `||` on line 346, so it is replaced by the default 0.5 — it does not
stay 0 as the claim asserts. -/
theorem c7_zero_confidence_cex :
    (normalizeParsed zeroConfParsed).map (fun r => r.confidence) =
      Except.ok (some ⟨1, 2⟩) := rfl

/-- C7 amended: the normalized confidence is the model value clamped into
[0,1] whenever the model supplies a truthy numeric confidence, and it
defaults to 0.5 exactly when the `confidence` value is absent or falsy —
including an explicit 0, which therefore becomes 0.5. -/
theorem c7_confidence_clamp_amended (parsed : JSValue) (r : AnalysisResult)
    (h : normalizeParsed parsed = Except.ok r) :
    (∀ q : JNum, getField parsed ("confidence") = some (.num q) → ¬ q.n = 0 →
        r.confidence = mathMin1 (mathMax0 (some q))) ∧
      ((∀ v, getField parsed ("confidence") = some v → jsTruthy v = false) →
        r.confidence = mathMin1 (mathMax0 (some jnHalf))) := by
  obtain ⟨hc, _, _, _, _⟩ := normalizeParsed_fields parsed r h
  constructor
  · intro q hq hqn
    rw [hc]
    unfold computeConfidence
    rw [hq]
    simp [jsOr, jsTruthy, jsToNumber, hqn]
  · intro hv
    rw [hc]
    unfold computeConfidence
    cases hg : getField parsed ("confidence") with
    | none => simp [jsOr, jsToNumber]
    | some v =>
      have := hv v hg
      simp [jsOr, this, jsToNumber]

/-- Witness for the amended C7 at `{"confidence":0.9}`. -/
theorem c7_confidence_clamp_amended_witness :
    defaultResult09.confidence = mathMin1 (mathMax0 (some ⟨9, 10⟩)) :=
  (c7_confidence_clamp_amended minimalParsed defaultResult09 (by rfl)).1
    ⟨9, 10⟩ (by rfl) (by decide)

/-- C8: the raw text `{"confidence":0.9}` normalizes to the fully
defaulted result: `confidenceLevel = "high"`, `needsMoreInfo = false`,
empty `materials`/`tools`/`steps`, `diyFriendly = "maybe"`,
`difficulty = "medium"`, and every other field present with its defined
fallback (see `defaultResult09`). -/
theorem c8_minimal_object_defaults :
    analyzeTryBody minimalText = Except.ok defaultResult09 := rfl

/-- C9: the normalized `confidenceLevel` is recomputed purely from the
clamped confidence — "high" iff it is at least 0.8, "medium" iff it is at
least 0.6 (and below 0.8), otherwise "low"; since it is a function of
`r.confidence` alone, any model-supplied level is ignored. -/
theorem c9_confidenceLevel_derived (parsed : JSValue) (r : AnalysisResult)
    (h : normalizeParsed parsed = Except.ok r) :
    r.confidenceLevel =
      (if jnGeb r.confidence ⟨8, 10⟩ then ("high")
        else if jnGeb r.confidence ⟨6, 10⟩ then ("medium")
        else ("low")) := by
  obtain ⟨hc, hl, _, _, _⟩ := normalizeParsed_fields parsed r h
  rw [hl, hc]
  rfl

/-- Witness for C9 at `{"confidence":0.9}`. -/
theorem c9_confidenceLevel_derived_witness :
    defaultResult09.confidenceLevel =
      (if jnGeb defaultResult09.confidence ⟨8, 10⟩ then ("high")
        else if jnGeb defaultResult09.confidence ⟨6, 10⟩ then ("medium")
        else ("low")) :=
  c9_confidenceLevel_derived minimalParsed defaultResult09 (by rfl)

/-- C10: every successfully normalized result has the legacy `followups`
field equal to the empty sequence and `additionalPhotosNeeded` equal to
the computed `needsMoreInfo` flag (lines 407-408). -/
theorem c10_legacy_fields (parsed : JSValue) (r : AnalysisResult)
    (h : normalizeParsed parsed = Except.ok r) :
    r.followups = [] ∧ r.additionalPhotosNeeded = r.needsMoreInfo := by
  obtain ⟨_, _, _, hf, ha⟩ := normalizeParsed_fields parsed r h
  exact ⟨hf, ha⟩

/-- Witness for C10 at `{"confidence":0.9}`. -/
theorem c10_legacy_fields_witness :
    defaultResult09.followups = [] ∧
      defaultResult09.additionalPhotosNeeded = defaultResult09.needsMoreInfo :=
  c10_legacy_fields minimalParsed defaultResult09 (by rfl)

/-- C3: the round number used for the prompt instruction is a pure
function of the conversation-history length — 1 for an absent or empty
history, `ceil(length/3) + 1` otherwise — with the concrete anchors
`0 ↦ 1`, `3 ↦ 2`, `6 ↦ 3`, and `9 ↦ 4`, which is still final
(at least `maxRounds`). -/
theorem c3_round_number_pure (m : RepairMetadata) :
    roundNumberOf m = roundFromLength (historyOf m).length ∧
      roundFromLength 0 = 1 ∧ roundFromLength 3 = 2 ∧ roundFromLength 6 = 3 ∧
      roundFromLength 9 = 4 ∧ maxRounds ≤ roundFromLength 9 := by
  refine ⟨?_, rfl, rfl, rfl, rfl, by decide⟩
  unfold roundNumberOf roundFromLength hasConversationB historyOf
  cases hc : m.conversationHistory with
  | none => simp
  | some h =>
    by_cases hl : h.length = 0
    · simp [hl]
    · have : 0 < h.length := Nat.pos_of_ne_zero hl
      simp [hl, this]

/-- The composed prompt always contains the selected round instruction
between the fixed context prefix and the closing reminder. -/
theorem prompt_contains_instruction (m : RepairMetadata) (hi : Bool) :
    strContains (buildUserPrompt m hi) (instructionOf m) := by
  refine
    ⟨("\nUSER") ++ apos ++ ("S PROBLEM:\n\"") ++ m.description ++ ("\"\n") ++
        imageNoteOf hi ++ ("\n") ++ profileSectionOf m ++ conversationSectionOf m ++
        ("\n---\n"),
      ("\n\nBase your confidence on DIAGNOSTIC CLARITY - how well you can identify and fix the problem.\n"),
      ?_⟩
  simp only [buildUserPrompt, String.append_assoc]

/-- C4: instruction-mode selection.  If the round number is at least
`maxRounds` the prompt contains the final instruction (best analysis, no
more questions); if history is present and the round is below final it
contains the continuation instruction; with no usable history it contains
the round-1 initial instruction. -/
theorem c4_instruction_mode (m : RepairMetadata) (hi : Bool) :
    (maxRounds ≤ roundNumberOf m →
        strContains (buildUserPrompt m hi) (finalInstructionFor (roundNumberOf m))) ∧
      (hasConversationB m = true → roundNumberOf m < maxRounds →
        strContains (buildUserPrompt m hi) (contInstructionFor (roundNumberOf m))) ∧
      (hasConversationB m = false →
        strContains (buildUserPrompt m hi) round1Instruction) := by
  refine ⟨?_, ?_, ?_⟩
  · intro hr
    have h := prompt_contains_instruction m hi
    rwa [instructionOf, if_pos hr] at h
  · intro hc hr
    have h := prompt_contains_instruction m hi
    rwa [instructionOf, if_neg (Nat.not_le.mpr hr), if_pos hc] at h
  · intro hc
    have h := prompt_contains_instruction m hi
    have h1 : roundNumberOf m = 1 := by simp [roundNumberOf, hc]
    rwa [instructionOf, if_neg (by rw [h1]; decide), if_neg (by simp [hc])] at h

/-- Witness for C4 covering the three modes: a 6-entry history (round 3,
final), a 1-entry history (round 2, continuation), and no history
(round 1). -/
theorem c4_instruction_mode_witness :
    strContains (buildUserPrompt metaRound3 false)
        (finalInstructionFor (roundNumberOf metaRound3)) ∧
      strContains (buildUserPrompt metaRound2 false)
        (contInstructionFor (roundNumberOf metaRound2)) ∧
      strContains (buildUserPrompt metaNoHistory true) round1Instruction :=
  ⟨(c4_instruction_mode metaRound3 false).1 (by decide),
    (c4_instruction_mode metaRound2 false).2.1 (by rfl) (by decide),
    (c4_instruction_mode metaNoHistory true).2.2 (by rfl)⟩

/-- Chaining substring containment. -/
theorem strContains_trans {big mid pat : String} (h1 : strContains big mid)
    (h2 : strContains mid pat) : strContains big pat := by
  obtain ⟨a, b, hab⟩ := h1
  obtain ⟨c, d, hcd⟩ := h2
  exact ⟨a ++ c, d ++ b, by rw [hab, hcd]; simp only [String.append_assoc]⟩

set_option maxRecDepth 4096 in
/-- C5: for any non-empty history the prompt contains the Q&A block with
the pairs rendered in their original order; an entry with an empty answer
renders as `A: (skipped)`; and in a continuation round (history present,
round below final) the instruction text explicitly cautions that
confidence is about how clearly the problem can be identified, not about
questions having been answered. -/
theorem c5_history_block_and_caution (m : RepairMetadata) (h : List QuestionAnswer)
    (hi : Bool) (hh : m.conversationHistory = some h) (hne : 0 < h.length) :
    strContains (buildUserPrompt m hi)
        (String.intercalate ("\n\n") (h.map renderQA)) ∧
      (∀ qa ∈ h, qa.answer = "" →
        renderQA qa = ("Q: ") ++ qa.question ++ ("\nA: (skipped)")) ∧
      (roundNumberOf m < maxRounds →
        strContains (buildUserPrompt m hi)
          ("Assess your DIAGNOSTIC CONFIDENCE based on how clearly you can identify the problem - not just because questions were answered.")) := by
  have hb : hasConversationB m = true := by simp [hasConversationB, hh, hne]
  have hhist : historyOf m = h := by simp [historyOf, hh]
  refine ⟨?_, ?_, ?_⟩
  · refine
      ⟨("\nUSER") ++ apos ++ ("S PROBLEM:\n\"") ++ m.description ++ ("\"\n") ++
          imageNoteOf hi ++ ("\n") ++ profileSectionOf m ++ ("\nPREVIOUS CONVERSATION:\n"),
        ("\n") ++ ("\n---\n") ++ instructionOf m ++
          ("\n\nBase your confidence on DIAGNOSTIC CLARITY - how well you can identify and fix the problem.\n"),
        ?_⟩
    simp only [buildUserPrompt, conversationSectionOf, hb, if_true, hhist,
      String.append_assoc]
  · intro qa _ hq
    have hx : ("\nA: ") ++ ("(skipped)") = ("\nA: (skipped)") := by decide
    simp only [renderQA, hq, if_pos, String.append_assoc]
    rw [hx]
  · intro hr
    apply strContains_trans (prompt_contains_instruction m hi)
    rw [instructionOf, if_neg (Nat.not_le.mpr hr), if_pos hb]
    have hsplit :
        (". Review ALL information above (description + answers). Assess your DIAGNOSTIC CONFIDENCE based on how clearly you can identify the problem - not just because questions were answered. If the answers helped clarify the diagnosis, confidence should be higher. If answers were vague or unhelpful, confidence may still be low.") =
          (". Review ALL information above (description + answers). ") ++
            (("Assess your DIAGNOSTIC CONFIDENCE based on how clearly you can identify the problem - not just because questions were answered.") ++
              (" If the answers helped clarify the diagnosis, confidence should be higher. If answers were vague or unhelpful, confidence may still be low.")) := by
      decide
    refine
      ⟨("Round ") ++ toString (roundNumberOf m) ++ ("/") ++ toString maxRounds ++
          (". Review ALL information above (description + answers). "),
        (" If the answers helped clarify the diagnosis, confidence should be higher. If answers were vague or unhelpful, confidence may still be low."),
        ?_⟩
    rw [contInstructionFor, hsplit]
    simp only [String.append_assoc]

/-- Witness for C5 at a one-entry history whose answer was skipped
(round 2, a continuation round). -/
theorem c5_history_block_and_caution_witness :
    strContains (buildUserPrompt metaRound2 false)
        (String.intercalate ("\n\n")
          (([{ question := ("Where is the leak?"), answer := ("") }] :
              List QuestionAnswer).map renderQA)) ∧
      renderQA { question := ("Where is the leak?"), answer := ("") } =
        ("Q: ") ++ ("Where is the leak?") ++ ("\nA: (skipped)") ∧
      strContains (buildUserPrompt metaRound2 false)
        ("Assess your DIAGNOSTIC CONFIDENCE based on how clearly you can identify the problem - not just because questions were answered.") := by
  have h :=
    c5_history_block_and_caution metaRound2
      [{ question := ("Where is the leak?"), answer := ("") }] false rfl (by decide)
  exact ⟨h.1, h.2.1 _ (by simp) rfl, h.2.2 (by decide)⟩

/-- A successful split decomposes the input around the pattern. -/
theorem splitFirst_eq (pat : List Char) :
    ∀ (s a b : List Char), splitFirst pat s = some (a, b) → s = a ++ pat ++ b := by
  intro s
  induction s with
  | nil =>
    intro a b h
    unfold splitFirst at h
    split at h
    · rename_i hp
      rw [ List.isPrefixOf_iff_prefix] at hp
      have hpn : pat = [] := List.prefix_nil.mp hp
      simp only [Option.some.injEq, Prod.mk.injEq] at h
      obtain ⟨ha, hb⟩ := h
      simp [← ha, ← hb, hpn]
    · simp at h
  | cons c rest ih =>
    intro a b h
    unfold splitFirst at h
    split at h
    · rename_i hp
      rw [ List.isPrefixOf_iff_prefix] at hp
      obtain ⟨t, ht⟩ := hp
      simp only [Option.some.injEq, Prod.mk.injEq] at h
      obtain ⟨ha, hb⟩ := h
      rw [← ha, ← hb, ← ht, List.nil_append, List.drop_left]
    · cases hs : splitFirst pat rest with
      | none => rw [hs] at h; simp at h
      | some p =>
        rw [hs] at h
        simp only [Option.some.injEq, Prod.mk.injEq] at h
        obtain ⟨ha, hb⟩ := h
        have hr := ih p.1 p.2 (by rw [hs])
        rw [← ha, ← hb]
        simp [hr]

/-- A failed split means the pattern occurs nowhere. -/
theorem splitFirst_none (pat : List Char) :
    ∀ (s : List Char), splitFirst pat s = none → ∀ x y, s ≠ x ++ pat ++ y := by
  intro s
  induction s with
  | nil =>
    intro h x y heq
    unfold splitFirst at h
    split at h
    · simp at h
    · rename_i hp
      have hlen := congrArg List.length heq
      simp only [List.length_nil, List.length_append] at hlen
      have hpn : pat = [] := List.length_eq_zero.mp (by omega)
      exact hp (by rw [ List.isPrefixOf_iff_prefix, hpn])
  | cons c rest ih =>
    intro h x y heq
    unfold splitFirst at h
    split at h
    · simp at h
    · rename_i hp
      cases x with
      | nil =>
        apply hp
        rw [ List.isPrefixOf_iff_prefix]
        exact ⟨y, by rw [List.nil_append] at heq; exact heq.symm⟩
      | cons x0 x' =>
        have hs : splitFirst pat rest = none := by
          cases hs : splitFirst pat rest with
          | none => rfl
          | some p => rw [hs] at h; simp at h
        simp only [List.cons_append, List.cons.injEq] at heq
        exact ih hs x' y heq.2

/-- The split is at the first occurrence: any other occurrence starts no
earlier. -/
theorem splitFirst_min (pat : List Char) :
    ∀ (s a b : List Char), splitFirst pat s = some (a, b) →
      ∀ x y, s = x ++ pat ++ y → a.length ≤ x.length := by
  intro s
  induction s with
  | nil =>
    intro a b h x y _
    unfold splitFirst at h
    split at h
    · simp only [Option.some.injEq, Prod.mk.injEq] at h
      rw [← h.1]
      exact Nat.zero_le _
    · simp at h
  | cons c rest ih =>
    intro a b h x y heq
    unfold splitFirst at h
    split at h
    · simp only [Option.some.injEq, Prod.mk.injEq] at h
      rw [← h.1]
      exact Nat.zero_le _
    · rename_i hp
      cases hs : splitFirst pat rest with
      | none => rw [hs] at h; simp at h
      | some p =>
        rw [hs] at h
        simp only [Option.some.injEq, Prod.mk.injEq] at h
        obtain ⟨ha, _⟩ := h
        cases x with
        | nil =>
          exfalso
          apply hp
          rw [ List.isPrefixOf_iff_prefix]
          exact ⟨y, by rw [List.nil_append] at heq; exact heq.symm⟩
        | cons x0 x' =>
          simp only [List.cons_append, List.cons.injEq] at heq
          have := ih p.1 p.2 (by rw [hs]) x' y heq.2
          rw [← ha]
          simp only [List.length_cons]
          omega

/-- If the pattern occurs after a point at least as deep as the split
point, it occurs in the part after the split. -/
theorem append_pat_suffix {pat a r x w : List Char}
    (heq : a ++ pat ++ r = x ++ pat ++ w) (hle : a.length ≤ x.length) :
    ∃ t, r = t ++ w := by
  rw [List.append_assoc, List.append_assoc] at heq
  rcases List.append_eq_append_iff.mp heq with ⟨k, hk1, hk2⟩ | ⟨k, hk1, hk2⟩
  · rcases List.append_eq_append_iff.mp hk2 with ⟨k', h1, h2⟩ | ⟨c', h1, h2⟩
    · exact ⟨k' ++ pat, by rw [h2]; simp [List.append_assoc]⟩
    · refine ⟨(k ++ c').drop c'.length, ?_⟩
      have hr : r = (c' ++ r).drop c'.length := by rw [List.drop_left]
      rw [hr, ← h2, h1]
      exact List.drop_append_of_le_length (by simp)
  · have hk0 : k = [] := by
      have hlen := congrArg List.length hk1
      simp only [List.length_append] at hlen
      exact List.length_eq_zero.mp (by omega)
    rw [hk0, List.append_nil] at hk1
    rw [hk0, List.nil_append] at hk2
    have : w = r := List.append_cancel_left hk2
    exact ⟨[], by rw [this, List.nil_append]⟩

/-- The fenced-block search fails exactly when the text has no
` ```json … ``` ` block. -/
theorem fencedMatch_none_iff (s : List Char) :
    fencedMatch s = none ↔ ¬ hasFencedBlock s := by
  constructor
  · intro h hb
    obtain ⟨x, y, z, hs⟩ := hb
    cases h1 : splitFirst fenceOpen s with
    | none =>
      exact splitFirst_none _ _ h1 x (y ++ fenceClose ++ z)
        (by rw [hs]; simp [List.append_assoc])
    | some p =>
      obtain ⟨a, r⟩ := p
      cases h2 : splitFirst fenceClose r with
      | none =>
        have hd := splitFirst_eq _ _ _ _ h1
        have hshape : s = x ++ fenceOpen ++ (y ++ fenceClose ++ z) := by
          rw [hs]; simp [List.append_assoc]
        have hm := splitFirst_min _ _ _ _ h1 x (y ++ fenceClose ++ z) hshape
        obtain ⟨t, ht⟩ := append_pat_suffix (hd.symm.trans hshape) hm
        exact splitFirst_none _ _ h2 (t ++ y) z (by rw [ht]; simp [List.append_assoc])
      | some q =>
        simp [fencedMatch, h1, h2] at h
  · intro hn
    cases h1 : splitFirst fenceOpen s with
    | none => simp [fencedMatch, h1]
    | some p =>
      obtain ⟨a, r⟩ := p
      cases h2 : splitFirst fenceClose r with
      | none => simp [fencedMatch, h1, h2]
      | some q =>
        obtain ⟨i, rest2⟩ := q
        exfalso
        apply hn
        have e1 := splitFirst_eq _ _ _ _ h1
        have e2 := splitFirst_eq _ _ _ _ h2
        exact ⟨a, i, rest2, by rw [e1, e2]; simp [List.append_assoc]⟩

/-- A found first index points at the character. -/
theorem firstIdx_getElem (c : Char) :
    ∀ (s : List Char) (k : Nat), firstIdx c s = some k → s[k]? = some c := by
  intro s
  induction s with
  | nil => intro k h; simp [firstIdx] at h
  | cons x xs ih =>
    intro k h
    by_cases hx : x = c
    · simp only [firstIdx, if_pos hx, Option.some.injEq] at h
      rw [← h, hx]
      simp
    · simp only [firstIdx, if_neg hx] at h
      cases hf : firstIdx c xs with
      | none => rw [hf] at h; simp at h
      | some k' =>
        rw [hf] at h
        simp only [Option.map_some', Option.some.injEq] at h
        rw [← h]
        simpa using ih k' hf

/-- The first index is minimal among occurrences. -/
theorem firstIdx_min (c : Char) :
    ∀ (s : List Char) (k : Nat), firstIdx c s = some k →
      ∀ i : Nat, s[i]? = some c → k ≤ i := by
  intro s
  induction s with
  | nil => intro k h; simp [firstIdx] at h
  | cons x xs ih =>
    intro k h i hi
    by_cases hx : x = c
    · simp only [firstIdx, if_pos hx, Option.some.injEq] at h
      omega
    · simp only [firstIdx, if_neg hx] at h
      cases hf : firstIdx c xs with
      | none => rw [hf] at h; simp at h
      | some k' =>
        rw [hf] at h
        simp only [Option.map_some', Option.some.injEq] at h
        cases i with
        | zero =>
          simp only [List.getElem?_cons_zero, Option.some.injEq] at hi
          exact absurd hi hx
        | succ i' =>
          simp only [List.getElem?_cons_succ] at hi
          have := ih k' hf i' hi
          omega

/-- An occurrence guarantees the first-index search succeeds. -/
theorem firstIdx_exists (c : Char) :
    ∀ (s : List Char) (i : Nat), s[i]? = some c → ∃ k, firstIdx c s = some k := by
  intro s
  induction s with
  | nil => intro i hi; simp at hi
  | cons x xs ih =>
    intro i hi
    by_cases hx : x = c
    · exact ⟨0, by simp [firstIdx, hx]⟩
    · cases i with
      | zero =>
        simp only [List.getElem?_cons_zero, Option.some.injEq] at hi
        exact absurd hi hx
      | succ i' =>
        simp only [List.getElem?_cons_succ] at hi
        obtain ⟨k, hk⟩ := ih i' hi
        exact ⟨k + 1, by simp [firstIdx, hx, hk]⟩

/-- A found last index points at the character. -/
theorem lastIdx_getElem (c : Char) :
    ∀ (s : List Char) (m : Nat), lastIdx c s = some m → s[m]? = some c := by
  intro s
  induction s with
  | nil => intro m h; simp [lastIdx] at h
  | cons x xs ih =>
    intro m h
    cases hf : lastIdx c xs with
    | some k =>
      simp only [lastIdx, hf, Option.some.injEq] at h
      rw [← h]
      simpa using ih k hf
    | none =>
      simp only [lastIdx, hf] at h
      split at h
      · rename_i hx
        simp only [Option.some.injEq] at h
        rw [← h, hx]
        simp
      · simp at h

/-- A failed last-index search means the character occurs nowhere. -/
theorem lastIdx_none (c : Char) :
    ∀ (s : List Char), lastIdx c s = none → ∀ j : Nat, ¬ s[j]? = some c := by
  intro s
  induction s with
  | nil => intro _ j; simp
  | cons x xs ih =>
    intro h j hj
    cases hf : lastIdx c xs with
    | some k => simp [lastIdx, hf] at h
    | none =>
      simp only [lastIdx, hf] at h
      split at h
      · simp at h
      · rename_i hx
        cases j with
        | zero =>
          simp only [List.getElem?_cons_zero, Option.some.injEq] at hj
          exact hx hj
        | succ j' =>
          simp only [List.getElem?_cons_succ] at hj
          exact ih hf j' hj

/-- The last index is maximal among occurrences. -/
theorem lastIdx_max (c : Char) :
    ∀ (s : List Char) (m : Nat), lastIdx c s = some m →
      ∀ j : Nat, s[j]? = some c → j ≤ m := by
  intro s
  induction s with
  | nil => intro m h; simp [lastIdx] at h
  | cons x xs ih =>
    intro m h j hj
    cases hf : lastIdx c xs with
    | some k =>
      simp only [lastIdx, hf, Option.some.injEq] at h
      cases j with
      | zero => omega
      | succ j' =>
        simp only [List.getElem?_cons_succ] at hj
        have := ih k hf j' hj
        omega
    | none =>
      simp only [lastIdx, hf] at h
      split at h
      · simp only [Option.some.injEq] at h
        cases j with
        | zero => omega
        | succ j' =>
          simp only [List.getElem?_cons_succ] at hj
          exact absurd hj (lastIdx_none c xs hf j')
      · simp at h

/-- An occurrence guarantees the last-index search succeeds. -/
theorem lastIdx_exists (c : Char) :
    ∀ (s : List Char) (j : Nat), s[j]? = some c → ∃ m, lastIdx c s = some m := by
  intro s
  induction s with
  | nil => intro j hj; simp at hj
  | cons x xs ih =>
    intro j hj
    cases j with
    | zero =>
      simp only [List.getElem?_cons_zero, Option.some.injEq] at hj
      cases hf : lastIdx c xs with
      | some k => exact ⟨k + 1, by simp [lastIdx, hf]⟩
      | none => exact ⟨0, by simp [lastIdx, hf, hj]⟩
    | succ j' =>
      simp only [List.getElem?_cons_succ] at hj
      obtain ⟨k, hk⟩ := ih j' hj
      exact ⟨k + 1, by simp [lastIdx, hk]⟩

/-- The brace fallback fails exactly when no `{` is followed by a later
`}`. -/
theorem braceMatch_none_iff (s : List Char) :
    braceMatch s = none ↔ ¬ hasBracePair s := by
  constructor
  · intro h hb
    obtain ⟨i, j, hij, hi, hj⟩ := hb
    obtain ⟨ki, hki⟩ := firstIdx_exists '{' s i hi
    obtain ⟨kj, hkj⟩ := lastIdx_exists '}' s j hj
    have h1 := firstIdx_min '{' s ki hki i hi
    have h2 := lastIdx_max '}' s kj hkj j hj
    have hlt : ki < kj := by omega
    simp [braceMatch, hki, hkj, hlt] at h
  · intro hn
    cases hki : firstIdx '{' s with
    | none =>
      cases hkj : lastIdx '}' s with
      | none => simp [braceMatch, hki, hkj]
      | some kj => simp [braceMatch, hki, hkj]
    | some ki =>
      cases hkj : lastIdx '}' s with
      | none => simp [braceMatch, hki, hkj]
      | some kj =>
        have hnlt : ¬ ki < kj := by
          intro hlt
          exact hn ⟨ki, kj, hlt, firstIdx_getElem '{' s ki hki, lastIdx_getElem '}' s kj hkj⟩
        simp [braceMatch, hki, hkj, hnlt]

/-- The extracted JSON string is absent exactly when both regexes fail. -/
theorem jsonStrOf_none_iff (s : List Char) :
    jsonStrOf s = none ↔ fencedMatch s = none ∧ braceMatch s = none := by
  cases hf : fencedMatch s with
  | none => simp [jsonStrOf, hf]
  | some p =>
    obtain ⟨full, cap⟩ := p
    simp [jsonStrOf, hf]

/-- C6 amended: the normalizer fails with the no-JSON-located error
(line 339, called `MalformedModelOutput` by the spec) exactly when the raw text
contains neither a ` ```json … ``` ` fenced block nor a `{` followed by a
later `}`.  (When a span is located it can still fail — with a JSON
parse error rather than the no-JSON error — because the greedy fallback
spans from the first `{` to the last `}`; see the counterexample.) -/
theorem c6_noJsonFound_exactly_when (text : String) :
    analyzeTryBody text = Except.error NormFailure.noJsonFound ↔
      ¬ (hasFencedBlock text.data ∨ hasBracePair text.data) := by
  cases hj : jsonStrOf text.data with
  | none =>
    obtain ⟨hf, hb⟩ := (jsonStrOf_none_iff text.data).mp hj
    constructor
    · intro _ hor
      rcases hor with hfb | hbp
      · exact (fencedMatch_none_iff text.data).mp hf hfb
      · exact (braceMatch_none_iff text.data).mp hb hbp
    · intro _
      simp [analyzeTryBody, hj]
  | some cs =>
    constructor
    · intro h
      exfalso
      cases hp : parseJsonChars cs with
      | none => simp [analyzeTryBody, hj, hp] at h
      | some parsed =>
        cases hr : normalizeParsed parsed with
        | error e => simp [analyzeTryBody, hj, hp, hr] at h
        | ok r => simp [analyzeTryBody, hj, hp, hr] at h
    · intro hnn
      exfalso
      apply hnn
      by_contra hno
      push_neg at hno
      have hf : fencedMatch text.data = none := (fencedMatch_none_iff text.data).mpr hno.1
      have hb : braceMatch text.data = none := (braceMatch_none_iff text.data).mpr hno.2
      have : jsonStrOf text.data = none := (jsonStrOf_none_iff text.data).mpr ⟨hf, hb⟩
      rw [this] at hj
      simp at hj

/-- C6 counterexample: `twoObjectsText` contains a brace pair — indeed it
contains the complete well-formed JSON object `{"a":1}` as a substring,
which `parseJsonChars` accepts — yet the normalizer raises: the greedy
fallback extracts from the first `{` to the last `}`, which is not valid
JSON, so the run fails (with the parse error, not the no-JSON error).
This refutes both "take the first top-level span" and "never raises when
a JSON object can be located". -/
theorem c6_locatable_json_still_raises_cex :
    hasBracePair twoObjectsText.data ∧
      strContains twoObjectsText ("\x7b\x22a\x22:1\x7d") ∧
      (parseJsonChars ("\x7b\x22a\x22:1\x7d").data).isSome = true ∧
      analyzeTryBody twoObjectsText = Except.error NormFailure.jsonParseError :=
  ⟨⟨2, 8, by decide, by decide, by decide⟩,
    ⟨("x "), (" y \x7b\x22b\x22:2\x7d z"), by decide⟩, rfl, rfl⟩

/-- Witness instantiating the amended C6 at plain prose: no fenced block
and no brace pair can exist in it, by the theorem, since the normalizer
reports the no-JSON error there. -/
theorem c6_noJsonFound_exactly_when_witness :
    ¬ (hasFencedBlock ("plain prose with no json at all").data ∨
        hasBracePair ("plain prose with no json at all").data) :=
  (c6_noJsonFound_exactly_when ("plain prose with no json at all")).mp (by rfl)
